import Mathlib

/-!
# Verification of the announcement aggregation pipeline

Shallow embedding of the core ingestion / deduplication pipeline of the
repository (exchange announcement scraper).  The embedded code comes from:

* app/utils/ticker_parser.py        (TickerParser)
* app/db/cache/redis_cache.py       (RedisCache)
* app/db/repository.py              (AnnouncementRepository)
* app/modules/parsers/exchanges/base.py (ExchangeScraper)
* app/orchestrator.py               (Orchestrator._process_exchange)

Python strings are modelled as Lean String / List Char (the inputs under
scrutiny are ASCII); machine integers are unbounded in Python so Int is
exact.  The async store (sqlite + redis) is modelled as explicit state
passing over a StoreState record holding the durable rows of one source
table ("the source under consideration") and the cached latest timestamp
for that source.  Failure of the durable transaction is modelled by an
explicit dbOk flag; a raised-and-caught exception corresponds to taking
the except branch of the embedded function.
-/

namespace Aggreflow

/-! ## Character classes (ASCII fragments of the Python regex classes) -/

/-- Characters matched by the regex class [A-Z0-9]. -/
def isTickerChar (c : Char) : Bool :=
  ('A' ≤ c && c ≤ 'Z') || ('0' ≤ c && c ≤ '9')

/-- Word characters for the regex word boundary \b (Python \w restricted to
ASCII: letters, digits, underscore; all inputs considered are ASCII). -/
def isWordChar (c : Char) : Bool :=
  c.isAlpha || c.isDigit || c = '_'

/-- Whitespace characters of the regex class \s (ASCII). -/
def isPySpace (c : Char) : Bool :=
  c = ' ' || c = '\t' || c = '\n' || c = '\r' || c = '\x0b' || c = '\x0c'

/-- Does the first list start with the second one (prefix test, used for
regex alternation and lookahead tests on the remaining input)? -/
def startsWithTok : List Char → List Char → Bool
  | _, [] => true
  | [], _ :: _ => false
  | c :: cs, d :: ds => c = d && startsWithTok cs ds

namespace TickerParser

/-- TickerParser.SECOND_PAIR_TOKENS. -/
def SECOND_PAIR_TOKENS : List String :=
  ["USDT", "USDC", "FUSDT", "BTC", "ETH", "BNB", "USD1"]

/-- TickerParser.BLACKLIST (a Python set literal; membership is all that is
ever used, so a list with the same elements is an exact model). -/
def BLACKLIST : List String :=
  ["USDT", "USDC", "FUSDT", "BTC", "ETH", "BNB", "USD1",
   "USD", "APR", "UTC", "AI", "WEB", "KRW",
   "MEXC", "BINGX", "BITHUMB", "UPBIT", "GATE", "BITGET", "HTX",
   "BINANCE", "KUCOIN", "OKX", "BYBIT", "KRAKEN", "BITSTAMP", "BITFINEX",
   "COINBASE", "LBANK", "POLONIEX", "BITMEX", "HUOBI", "COINLIST"]

/-- Maximal word-character runs of a text, in order: the "words" delimited
by non-word characters.  The regex \b([A-Z0-9]+)\b used by
_extract_valid_tickers matches exactly those words that consist entirely
of [A-Z0-9] (a partial run inside a word is never flanked by boundaries). -/
def splitWordsAux : List Char → List Char → List (List Char)
  | [], acc => if acc.isEmpty then [] else [acc.reverse]
  | c :: cs, acc =>
    if isWordChar c then splitWordsAux cs (c :: acc)
    else if acc.isEmpty then splitWordsAux cs []
    else acc.reverse :: splitWordsAux cs []

def splitWords (s : List Char) : List (List Char) :=
  splitWordsAux s []

/-- TickerParser._extract_valid_tickers: findall of \b([A-Z0-9]+)\b, then
keep matches that equal their own uppercasing (always true for [A-Z0-9]
matches) and have length at most 12. -/
def extract_valid_tickers (s : List Char) : List (List Char) :=
  (splitWords s).filter (fun w => w.all isTickerChar && w.length ≤ 12)

/-- Python str.isdigit on an [A-Z0-9] token: nonempty and all digits. -/
def isDigitsTok (t : List Char) : Bool :=
  !t.isEmpty && t.all Char.isDigit

/-- Is some SECOND_PAIR_TOKENS element exactly the suffix of t that starts
at position p? -/
def suffixMatchAt (t : List Char) (p : Nat) : Bool :=
  SECOND_PAIR_TOKENS.any (fun tok => t.drop p == tok.data)

/-- re.sub('(USDT|USDC|FUSDT|BTC|ETH|BNB|USD1)$', '', t): the leftmost
position whose remaining characters equal one of the alternatives is
removed (the $ anchor forces the match to run to the end, so the removed
part is the longest blacklisted suffix). -/
def stripPairSuffix (t : List Char) : List Char :=
  match (List.range (t.length + 1)).find? (fun p => suffixMatchAt t p) with
  | some p => t.take p
  | none => t

/-- TickerParser._filter_tickers: drop pure-digit tokens, drop blacklisted
tokens, strip the trading-pair suffix, and keep the cleaned token when it
is nonempty and not blacklisted. -/
def filter_tickers (tickers : List (List Char)) : List (List Char) :=
  let f1 := tickers.filter (fun t => !(isDigitsTok t))
  let f2 := f1.filter (fun t => !(BLACKLIST.any (fun b => b.data == t)))
  f2.filterMap (fun t =>
    let c := stripPairSuffix t
    if !c.isEmpty && !(BLACKLIST.any (fun b => b.data == c)) then some c else none)

/-- The tail of TickerParser.extract_tickers, starting from the raw strings
captured by the pattern findall calls: each captured string is run through
_extract_valid_tickers, the results are accumulated in a set, filtered by
_filter_tickers, and returned sorted.  Parameterising over the captured
strings covers every choice of title, body and pattern list. -/
def extractTickersCore (captures : List (List Char)) : List String :=
  let all := (captures.map extract_valid_tickers).flatten
  let cleaned := filter_tickers all
  List.insertionSort (fun a b => a ≤ b) ((cleaned.map (fun t => String.mk t)).dedup)

/-! ### The five DEFAULT_PATTERNS, as executable findall scanners

re.findall scans the text left to right, emits the capture group of each
match found, and resumes scanning at the end of the consumed part of the
match.  Every pattern below consumes at least one character per match, so
a fuel of text length + 1 is enough for the scan. -/

/-- Length of the maximal [A-Z0-9] run at the head of the input. -/
def tickerRunLen (cs : List Char) : Nat :=
  (cs.takeWhile isTickerChar).length

/-- One match attempt of pattern 1, r'\(\s*([A-Z0-9][A-Z0-9]{0,11})\s*\)',
at the current position: an opening parenthesis, optional spaces, a run of
1 to 12 ticker characters (a longer run cannot match: after backtracking
the next character is still in [A-Z0-9], hence neither \s nor the closing
parenthesis), optional spaces, a closing parenthesis.  Returns the capture
and the rest of the text after the match. -/
def p1MatchAt (cs : List Char) : Option (List Char × List Char) :=
  match cs with
  | '(' :: rest =>
    let afterSp := rest.dropWhile isPySpace
    let run := afterSp.takeWhile isTickerChar
    if 1 ≤ run.length && run.length ≤ 12 then
      match (afterSp.drop run.length).dropWhile isPySpace with
      | ')' :: rest2 => some (run, rest2)
      | _ => none
    else none
  | _ => none

def p1Aux : Nat → List Char → List (List Char)
  | 0, _ => []
  | _, [] => []
  | fuel + 1, c :: cs =>
    match p1MatchAt (c :: cs) with
    | some (cap, rest) => cap :: p1Aux fuel rest
    | none => p1Aux fuel cs

def findAllP1 (text : List Char) : List (List Char) :=
  p1Aux (text.length + 1) text

/-- The suffix alternation (?:USDT|USDC|BTC|ETH|BNB|USD1) of patterns 2
and 3 (note: without FUSDT, unlike SECOND_PAIR_TOKENS). -/
def P23_SUFFIXES : List String :=
  ["USDT", "USDC", "BTC", "ETH", "BNB", "USD1"]

/-- Word boundary \b at a position whose preceding character is a word
character: it holds exactly at end of text or before a non-word char. -/
def boundaryAfter : List Char → Bool
  | [] => true
  | c :: _ => !(isWordChar c)

/-- Pattern 2 continuation after the captured run: one of the suffix
alternatives (tried left to right; at most one can be a prefix of the
remaining text), then an optional 'M' (greedy), then \b.  Returns how many
characters the suffix part consumed. -/
def p2TrySuffix (cs : List Char) : Option Nat :=
  P23_SUFFIXES.findSome? (fun tok =>
    if startsWithTok cs tok.data then
      let rest1 := cs.drop tok.data.length
      match rest1 with
      | 'M' :: rest2 =>
        if boundaryAfter rest2 then some (tok.data.length + 1)
        else if boundaryAfter rest1 then some tok.data.length
        else none
      | _ => if boundaryAfter rest1 then some tok.data.length else none
    else none)

/-- The greedy capture of pattern 2: try capture lengths k from the
largest possible down to 2 ([A-Z0-9][A-Z0-9]{1,14} is 2 to 15 chars); for
each, the suffix part must match right after.  Returns the capture and the
total number of characters consumed. -/
def p2TryK (cs : List Char) : Nat → Option (List Char × Nat)
  | 0 => none
  | 1 => none
  | k + 2 =>
    match p2TrySuffix (cs.drop (k + 2)) with
    | some consumed => some (cs.take (k + 2), k + 2 + consumed)
    | none => p2TryK cs (k + 1)

/-- Scanner for pattern 2,
r'\b([A-Z0-9][A-Z0-9]{1,14})(?:USDT|USDC|BTC|ETH|BNB|USD1)(?:M)?\b'.
prev is the character before the current position (none at text start);
since the first captured character is a word character, \b holds exactly
when prev is absent or a non-word character. -/
def p2Aux : Nat → Option Char → List Char → List (List Char)
  | 0, _, _ => []
  | _, _, [] => []
  | fuel + 1, prev, c :: cs =>
    let boundary := match prev with | none => true | some p => !(isWordChar p)
    let text := c :: cs
    if boundary && isTickerChar c then
      match p2TryK text (min (tickerRunLen text) 15) with
      | some (cap, consumed) =>
        cap :: p2Aux fuel ((text.take consumed).getLast?) (text.drop consumed)
      | none => p2Aux fuel (some c) cs
    else p2Aux fuel (some c) cs

def findAllP2 (text : List Char) : List (List Char) :=
  p2Aux (text.length + 1) none text

/-- The greedy capture of pattern 3: capture lengths k from the largest
(at most 12) down to 1; the zero-width lookahead requires one of the
suffix alternatives to start right after the capture. -/
def p3TryK (cs : List Char) : Nat → Option Nat
  | 0 => none
  | k + 1 =>
    if P23_SUFFIXES.any (fun tok => startsWithTok (cs.drop (k + 1)) tok.data) then
      some (k + 1)
    else p3TryK cs k

/-- Scanner for pattern 3,
r'\b([A-Z0-9][A-Z0-9]{0,11})(?=(?:USDT|USDC|BTC|ETH|BNB|USD1))'.
The lookahead consumes nothing, so the scan resumes right after the
captured run. -/
def p3Aux : Nat → Option Char → List Char → List (List Char)
  | 0, _, _ => []
  | _, _, [] => []
  | fuel + 1, prev, c :: cs =>
    let boundary := match prev with | none => true | some p => !(isWordChar p)
    let text := c :: cs
    if boundary && isTickerChar c then
      match p3TryK text (min (tickerRunLen text) 12) with
      | some k => (text.take k) :: p3Aux fuel ((text.take k).getLast?) (text.drop k)
      | none => p3Aux fuel (some c) cs
    else p3Aux fuel (some c) cs

def findAllP3 (text : List Char) : List (List Char) :=
  p3Aux (text.length + 1) none text

/-- Delimiter class [\s,&/] of pattern 4. -/
def p4PrefixChar (c : Char) : Bool :=
  isPySpace c || c = ',' || c = '&' || c = '/'

/-- Lookahead class [\s,&/)] of pattern 4. -/
def p4LookChar (c : Char) : Bool :=
  p4PrefixChar c || c = ')'

/-- Capture part of patterns 4 and 5 at the capture start position: a run
of 1 to 12 ticker characters followed (zero-width) by a character of the
lookahead class or end of text.  Only the maximal run can match, because a
shorter capture is followed by another [A-Z0-9] character, which is never
in the lookahead class. -/
def p45Capture (look : Char → Bool) (cs : List Char) : Option Nat :=
  let m := tickerRunLen cs
  if 1 ≤ m && m ≤ 12 then
    match cs.drop m with
    | [] => some m
    | d :: _ => if look d then some m else none
  else none

/-- Scanner for patterns 4 and 5: (?:^|pset)(capture)(?=look|$).  The ^
alternative is tried first and applies only at the very start of the text
(atStart); otherwise one delimiter character from pset is consumed before
the capture. -/
def p45Aux (pset look : Char → Bool) : Nat → Bool → List Char → List (List Char)
  | 0, _, _ => []
  | _, _, [] => []
  | fuel + 1, atStart, c :: cs =>
    let text := c :: cs
    let viaStart : Option Nat := if atStart then p45Capture look text else none
    match viaStart with
    | some m => (text.take m) :: p45Aux pset look fuel false (text.drop m)
    | none =>
      if pset c then
        match p45Capture look cs with
        | some m => (cs.take m) :: p45Aux pset look fuel false (cs.drop m)
        | none => p45Aux pset look fuel false cs
      else p45Aux pset look fuel false cs

/-- Pattern 4: r'(?:^|[\s,&/])([A-Z0-9][A-Z0-9]{0,11})(?=[\s,&/)]|$)'. -/
def findAllP4 (text : List Char) : List (List Char) :=
  p45Aux p4PrefixChar p4LookChar (text.length + 1) true text

/-- Pattern 5: r'(?:^|\s)([A-Z0-9][A-Z0-9]{0,11})(?=\s|$)'. -/
def findAllP5 (text : List Char) : List (List Char) :=
  p45Aux isPySpace isPySpace (text.length + 1) true text

/-- re.sub(r'([A-Z0-9]+), ([A-Z0-9]+) and ([A-Z0-9]+)', r'\1, \2, \3,', text):
rewrites "PLTR, NFLX and MSTR" into "PLTR, NFLX, MSTR,".  The greedy
groups are exactly the maximal [A-Z0-9] runs (a shortened run is followed
by another [A-Z0-9] character, which matches neither ', ' nor ' and ').
Scanning resumes after the replaced part. -/
def rewriteAndAux : Nat → List Char → List Char
  | 0, cs => cs
  | _, [] => []
  | fuel + 1, c :: rest =>
    let cs := c :: rest
    if isTickerChar c then
      let r1 := cs.takeWhile isTickerChar
      match cs.drop r1.length with
      | ',' :: ' ' :: t2 =>
        let r2 := t2.takeWhile isTickerChar
        if r2.isEmpty then c :: rewriteAndAux fuel rest
        else
          match t2.drop r2.length with
          | ' ' :: 'a' :: 'n' :: 'd' :: ' ' :: t4 =>
            let r3 := t4.takeWhile isTickerChar
            if r3.isEmpty then c :: rewriteAndAux fuel rest
            else
              r1 ++ (',' :: ' ' :: r2) ++ (',' :: ' ' :: r3) ++ [','] ++
                rewriteAndAux fuel (t4.drop r3.length)
          | _ => c :: rewriteAndAux fuel rest
      | _ => c :: rewriteAndAux fuel rest
    else c :: rewriteAndAux fuel rest

def rewriteAndList (text : List Char) : List Char :=
  rewriteAndAux (text.length + 1) text

/-- The captures of all five DEFAULT_PATTERNS over a text (the order is
irrelevant: they are accumulated into a set). -/
def defaultPatternMatches (text : List Char) : List (List Char) :=
  findAllP1 text ++ findAllP2 text ++ findAllP3 text ++ findAllP4 text ++ findAllP5 text

/-- TickerParser.extract_tickers with patterns=None (DEFAULT_PATTERNS):
text = f"{title} {body or ''}", the ", X and Y" rewrite, findall of every
default pattern, then the common filtering/sorting tail. -/
def extract_tickers (title : String) (body : String := "") : List String :=
  let text := rewriteAndList (title.data ++ ' ' :: body.data)
  extractTickersCore (defaultPatternMatches text)

end TickerParser

/-! ## Data model -/

/-- db/config/loader.py CategoryMapping (title_regex is carried but the
classification path under scrutiny, classify_by_category, only reads
original_ids and the names). -/
structure CategoryMapping where
  original_ids : List String
  show_name : String
  internal_name : String
  title_regex : Option String := none
deriving DecidableEq, Repr

/-- The default_category argument of ExchangeScraper.classify_by_category. -/
def defaultCategory : CategoryMapping :=
  { internal_name := "other", show_name := "Other", original_ids := [] }

/-- The value set of the AnnouncementType enum; the constructor
AnnouncementType(value) succeeds exactly on these strings. -/
def announcementTypeValues : List String :=
  ["listing_spot", "listing_futures", "delisting", "activities",
   "maintenance", "news", "other"]

/-- core/models/announcement.py Announcement (classified_type is carried
as its enum value string). -/
structure Announcement where
  exchange : String
  source_id : String
  tickers : List String
  title : String
  url : String
  published_at_ms : Int
  body_text : Option String
  classified_type : String
  category : CategoryMapping
deriving DecidableEq, Repr

/-- The persistence state for one source (one sqlite table plus that
source's latest-timestamp cache key).  rows are the durable table rows in
insertion order; cacheLatest models the redis value at key
latest:{exchange} (none = key absent).  All claims concern a single
source, and the durable store is partitioned per source, so one table
suffices. -/
structure StoreState where
  rows : List Announcement
  cacheLatest : Option Int
deriving DecidableEq, Repr

/-- Python truthiness of an Optional[int]: None and 0 are falsy. -/
def pyTruthy : Option Int → Bool
  | none => false
  | some v => v != 0

/-! ## RedisCache (db/cache/redis_cache.py) -/

namespace RedisCache

/-- RedisCache.get_latest_ms: GET latest:{exchange}, then
int(value) if value else None.  The stored value is the str() of an int,
so the string "0" is truthy and parses to 0: the method returns exactly
the stored integer when the key exists. -/
def get_latest_ms (c : Option Int) : Option Int := c

/-- RedisCache.set_latest_ms: writes the new value when
"not current or timestamp_ms > current" — i.e. the current value is
absent, 0 (Python falsiness), or strictly smaller than the new value;
otherwise leaves the stored value alone. -/
def set_latest_ms (c : Option Int) (timestamp_ms : Int) : Option Int :=
  match get_latest_ms c with
  | none => some timestamp_ms
  | some v =>
    if v = 0 then some timestamp_ms
    else if timestamp_ms > v then some timestamp_ms
    else some v

end RedisCache

/-! ## AnnouncementRepository (db/repository.py) -/

namespace AnnouncementRepository

/-- Does a row with the given source_id exist? (SELECT 1 FROM {table}
WHERE source_id = ?). -/
def anyId (rows : List Announcement) (sid : String) : Bool :=
  rows.any (fun r => r.source_id == sid)

/-- AnnouncementRepository.is_announcement_exists (the table exists, since
init() creates every configured table; on a missing table the code
degrades to false). -/
def is_announcement_exists (st : StoreState) (source_id : String) : Bool :=
  anyId st.rows source_id

/-- One INSERT OR IGNORE of executemany: appends the row unless a row
with the same source_id is already present (UNIQUE constraint). -/
def insertRow (rows : List Announcement) (a : Announcement) : List Announcement :=
  if anyId rows a.source_id then rows else rows ++ [a]

/-- executemany of INSERT OR IGNORE over the batch, in order. -/
def insertOrIgnoreMany (rows : List Announcement) (anns : List Announcement) : List Announcement :=
  anns.foldl insertRow rows

/-- max(announcements, key=lambda ann: ann.published_at_ms).published_at_ms
on a nonempty batch ([] never reaches this point; 0 is a dummy). -/
def maxPublished (anns : List Announcement) : Int :=
  match anns with
  | [] => 0
  | a :: rest => rest.foldl (fun m b => max m b.published_at_ms) a.published_at_ms

/-- SELECT published_at_ms FROM {table} ORDER BY published_at_ms DESC
LIMIT 1 OFFSET step: the step-th largest timestamp among the rows. -/
def nthLatestPublished (rows : List Announcement) (step : Nat) : Option Int :=
  (List.insertionSort (fun a b => b ≤ a) (rows.map (fun r => r.published_at_ms))).get? step

/-- AnnouncementRepository.get_latest_published_ms.  For step 0 the cached
value is consulted first ("if latest: return latest" — a cached 0 is
falsy and falls through to the database).  Otherwise the database is
queried; a truthy step-0 result is backfilled into the cache (through
RedisCache.set_latest_ms).  Returns the possibly-updated state and the
result. -/
def get_latest_published_ms (st : StoreState) (step : Nat := 0) : StoreState × Option Int :=
  if step = 0 && pyTruthy (RedisCache.get_latest_ms st.cacheLatest) then
    (st, RedisCache.get_latest_ms st.cacheLatest)
  else
    let result := nthLatestPublished st.rows step
    if step = 0 && pyTruthy result then
      ({ st with cacheLatest := RedisCache.set_latest_ms st.cacheLatest (result.getD 0) },
       result)
    else (st, result)

/-- AnnouncementRepository.insert_many_if_new.  An empty batch returns
immediately.  dbOk models the fate of the sqlite transaction: when it
succeeds, the rows are inserted with INSERT OR IGNORE, the transaction is
committed, the cached latest timestamp is updated with the newest batch
timestamp, and the whole input batch is returned.  When the transaction
raises, the except branch returns an empty list and the state is
untouched (the uncommitted transaction is rolled back; set_latest_ms is
never reached). -/
def insert_many_if_new (st : StoreState) (announcements : List Announcement)
    (dbOk : Bool) : StoreState × List Announcement :=
  match announcements with
  | [] => (st, [])
  | _ :: _ =>
    if dbOk then
      let rows2 := insertOrIgnoreMany st.rows announcements
      let cache2 := RedisCache.set_latest_ms st.cacheLatest (maxPublished announcements)
      (⟨rows2, cache2⟩, announcements)
    else (st, [])

end AnnouncementRepository

/-! ## ExchangeScraper (modules/parsers/exchanges/base.py) -/

/-- The per-scraper configuration consumed by the embedded methods: the
source name and the category mapping table.  The scrapers under scrutiny
use the default ticker patterns (patterns falsy ⇒ DEFAULT_PATTERNS). -/
structure ScraperConfig where
  name : String
  categories : List CategoryMapping
deriving DecidableEq, Repr

/-- A native item, modelled by the results of the per-exchange pure field
projections extract_source_id / extract_title / extract_body /
extract_timestamp / extract_category / build_url applied to it. -/
structure Item where
  source_id : String
  title : String
  body : String
  published_ms : Int
  category : String
  url : String
deriving DecidableEq, Repr

namespace ExchangeScraper

/-- ExchangeScraper.classify_by_category: falsy category token yields the
default; otherwise the first configured mapping whose original_ids
contains the token case-insensitively; unmapped tokens fall back to the
default ("other"). -/
def classify_by_category (cfg : ScraperConfig) (category : String) : CategoryMapping :=
  if category = "" then defaultCategory
  else
    match cfg.categories.find? (fun cc =>
        (cc.original_ids.map (fun i => i.toLower)).contains category.toLower) with
    | some cc => cc
    | none => defaultCategory

/-- ExchangeScraper.parse_announcement.  A falsy source_id returns None.
AnnouncementType(category.internal_name) raises ValueError on a string
outside the enum; that exception is caught by the batch loop and skips
the item, which is modelled as parse failure here (the default mapping
"other" is always valid). -/
def parse_announcement (cfg : ScraperConfig) (item : Item) : Option Announcement :=
  if item.source_id = "" then none
  else
    let category := classify_by_category cfg item.category
    if announcementTypeValues.contains category.internal_name then
      some { exchange := cfg.name
             source_id := item.source_id
             tickers := TickerParser.extract_tickers item.title
             title := item.title
             url := item.url
             published_at_ms := item.published_ms
             body_text := if item.body = "" then none else some (item.body.take 500)
             classified_type := category.internal_name
             category := category }
    else none

/-- ExchangeScraper.sort_items_by_date: stable sort by timestamp,
descending (Python sorted with reverse=True). -/
def sort_items_by_date (items : List Item) : List Item :=
  List.insertionSort (fun a b => b.published_ms ≤ a.published_ms) items

/-- The for-loop body of ExchangeScraper._process_items: skip items whose
parse fails (falsy source_id, or a per-item exception caught by the
except branch); stop the whole batch at the first parsed item that is
older than the cutoff or already present in the durable store; accumulate
the rest. -/
def procLoop (cfg : ScraperConfig) (current_latest_ms : Int)
    (rows : List Announcement) : List Item → List Announcement
  | [] => []
  | item :: rest =>
    match parse_announcement cfg item with
    | none => procLoop cfg current_latest_ms rows rest
    | some ann =>
      if ann.published_at_ms < current_latest_ms || AnnouncementRepository.anyId rows ann.source_id then
        []
      else ann :: procLoop cfg current_latest_ms rows rest

/-- ExchangeScraper._process_items: read the cutoff via
get_latest_published_ms (defaulting to 0), then run the batch loop
against the durable rows. -/
def process_items (cfg : ScraperConfig) (st : StoreState)
    (sorted_items : List Item) : StoreState × List Announcement :=
  let r := AnnouncementRepository.get_latest_published_ms st 0
  let current_latest_ms := r.2.getD 0
  (r.1, procLoop cfg current_latest_ms r.1.rows sorted_items)

/-- ExchangeScraper.fetch_latest.  fetched is the outcome of
fetch_raw_announcements + extract_items (an Except, since the underlying
HTTP request can raise after its retries are exhausted).  The try/except
of fetch_latest catches every exception, logs it, and returns ([], 0);
on success the items are sorted descending and run through
_process_items. -/
def fetch_latest (cfg : ScraperConfig) (st : StoreState)
    (fetched : Except String (List Item)) : StoreState × List Announcement × Nat :=
  match fetched with
  | .error _ => (st, [], 0)
  | .ok items =>
    let sorted := sort_items_by_date items
    let r := process_items cfg st sorted
    (r.1, r.2, items.length)

end ExchangeScraper

/-! ## HttpClient (core/http_client.py) -/

namespace HttpClient

/-- The tenacity retry loop of HttpClient.request, modelled over the
sequence of attempt outcomes: return the first success, and with
reraise=True re-raise the error of the last attempt once the attempts are
used up. -/
def retryLoop : List (Except String String) → Except String String
  | [] => .error ""
  | [a] => a
  | a :: b :: rest =>
    match a with
    | .ok s => .ok s
    | .error _ => retryLoop (b :: rest)

/-- HttpClient.request with stop_after_attempt(3): at most the first three
attempt outcomes are consumed. -/
def request (attempts : List (Except String String)) : Except String String :=
  retryLoop (attempts.take 3)

end HttpClient

/-! ## Orchestrator._process_exchange (orchestrator.py) -/

/-- The observable outcome of one Orchestrator._process_exchange call:
the resulting store state, the list returned by insert_many_if_new, the
records actually forwarded to the notifier (one send per element of
new_anns[:5]), and the two counters it returns. -/
structure ProcResult where
  st : StoreState
  newAnns : List Announcement
  notified : List Announcement
  newCount : Nat
  total : Nat
deriving DecidableEq, Repr

/-- Orchestrator._process_exchange: fetch_latest, early return on an empty
batch, insert_many_if_new, then one notification per record of
new_anns[:5]; returns (len(new_anns), total). -/
def process_exchange (cfg : ScraperConfig) (st : StoreState)
    (fetched : Except String (List Item)) (dbOk : Bool) : ProcResult :=
  let f := ExchangeScraper.fetch_latest cfg st fetched
  if f.2.1.isEmpty then ⟨f.1, [], [], 0, f.2.2⟩
  else
    let r := AnnouncementRepository.insert_many_if_new f.1 f.2.1 dbOk
    ⟨r.1, r.2, r.2.take 5, r.2.length, f.2.2⟩

/-! ## Concrete fixtures for the scenario claims -/

/-- A scraper for a source named "binance" with no configured category
mappings (every token classifies to the default "other", which is all the
scenario claims need). -/
def cfgEx : ScraperConfig := ⟨"binance", []⟩

/-- A native item with the given id and timestamp (title "t" parses to no
tickers; empty body and category). -/
def mkItem (sid : String) (ts : Int) : Item := ⟨sid, "t", "", ts, "", "u"⟩

/-- A durable row with the given id and timestamp. -/
def annRow (sid : String) (ts : Int) : Announcement :=
  ⟨"binance", sid, [], "t", "u", ts, none, "other", defaultCategory⟩

/-- A source whose latest known timestamp is 1000: the timestamp-1000
announcement is persisted and the cached latest value is 1000. -/
def stWith1000 : StoreState := ⟨[annRow "e1000" 1000], some 1000⟩

/-- A fresh source: no durable rows, no cached latest value. -/
def stEmpty : StoreState := ⟨[], none⟩

/-! ## Helper lemmas -/

@[simp] lemma pyTruthy_none : pyTruthy none = false := rfl

@[simp] lemma pyTruthy_some (v : Int) : pyTruthy (some v) = (v != 0) := rfl

@[simp] lemma get_latest_ms_id (c : Option Int) : RedisCache.get_latest_ms c = c := rfl

/-- Writing over an absent or zero (falsy) stored value always stores the
new value. -/
lemma set_latest_ms_of_falsy {c : Option Int} (h : pyTruthy c = false) (ts : Int) :
    RedisCache.set_latest_ms c ts = some ts := by
  cases c with
  | none => rfl
  | some v =>
    have hv : v = 0 := by simpa using h
    simp [RedisCache.set_latest_ms, hv]

namespace AnnouncementRepository

/-- Reading the latest timestamp never touches the durable rows. -/
lemma get_latest_rows (st : StoreState) (step : Nat) :
    (get_latest_published_ms st step).1.rows = st.rows := by
  simp only [get_latest_published_ms]
  split
  · rfl
  · split <;> rfl

/-- Reading the latest timestamp twice in a row (with only the read's own
cache backfill in between) gives the same state and value. -/
lemma get_latest_idem (st : StoreState) :
    get_latest_published_ms (get_latest_published_ms st 0).1 0 =
      get_latest_published_ms st 0 := by
  by_cases hc : pyTruthy st.cacheLatest = true
  · simp [get_latest_published_ms, hc]
  · rw [Bool.not_eq_true] at hc
    by_cases hr : pyTruthy (nthLatestPublished st.rows 0) = true
    · obtain ⟨v, hv⟩ : ∃ v, nthLatestPublished st.rows 0 = some v := by
        cases h : nthLatestPublished st.rows 0 with
        | none => rw [h] at hr; simp at hr
        | some v => exact ⟨v, rfl⟩
      have hv0 : (v != 0) = true := by rw [hv] at hr; simpa using hr
      have hset : RedisCache.set_latest_ms st.cacheLatest v = some v :=
        set_latest_ms_of_falsy hc v
      simp [get_latest_published_ms, hc, hr, hv, hset, hv0]
    · rw [Bool.not_eq_true] at hr
      simp [get_latest_published_ms, hc, hr]

/-- anyId over an append. -/
lemma anyId_append (rows1 rows2 : List Announcement) (s : String) :
    anyId (rows1 ++ rows2) s = (anyId rows1 s || anyId rows2 s) := by
  simp [anyId]

/-- An id present before an INSERT OR IGNORE is still present after it. -/
lemma anyId_insertRow_mono {rows : List Announcement} (a : Announcement) {s : String}
    (h : anyId rows s = true) : anyId (insertRow rows a) s = true := by
  unfold insertRow
  split
  · exact h
  · rw [anyId_append, h, Bool.true_or]

/-- An id present before a batch insert is still present after it. -/
lemma anyId_insertMany_mono (anns : List Announcement) {rows : List Announcement}
    {s : String} (h : anyId rows s = true) :
    anyId (insertOrIgnoreMany rows anns) s = true := by
  induction anns generalizing rows with
  | nil => exact h
  | cons a rest ih => exact ih (anyId_insertRow_mono a h)

/-- After INSERT OR IGNORE of a row, its id is present. -/
lemma anyId_insertRow_self (rows : List Announcement) (a : Announcement) :
    anyId (insertRow rows a) a.source_id = true := by
  unfold insertRow
  split
  · assumption
  · rw [anyId_append]
    simp [anyId]

/-- After a batch insert, the id of every batch element is present. -/
lemma anyId_insertMany_mem {x : Announcement} :
    ∀ (anns rows : List Announcement), x ∈ anns →
      anyId (insertOrIgnoreMany rows anns) x.source_id = true := by
  intro anns
  induction anns with
  | nil => intro rows hx; cases hx
  | cons a rest ih =>
    intro rows hx
    cases hx with
    | head => exact anyId_insertMany_mono rest (anyId_insertRow_self rows x)
    | tail _ h => exact ih (insertRow rows a) h

/-- An absent id really is absent from every row. -/
lemma anyId_eq_false_iff (rows : List Announcement) (s : String) :
    anyId rows s = false ↔ ∀ r ∈ rows, r.source_id ≠ s := by
  simp [anyId]

/-- INSERT OR IGNORE preserves uniqueness of the source_id column. -/
lemma nodup_ids_insertRow {rows : List Announcement} (a : Announcement)
    (h : (rows.map (fun r => r.source_id)).Nodup) :
    ((insertRow rows a).map (fun r => r.source_id)).Nodup := by
  unfold insertRow
  split
  · exact h
  · rename_i hmiss
    rw [Bool.not_eq_true] at hmiss
    rw [List.map_append, List.nodup_append]
    refine ⟨h, by simp, ?_⟩
    intro s hs hs2
    simp only [List.map_cons, List.map_nil, List.mem_singleton] at hs2
    obtain ⟨r, hr, hrs⟩ := List.mem_map.mp hs
    exact ((anyId_eq_false_iff rows a.source_id).mp hmiss r hr) (by rw [hrs, hs2])

/-- A batch insert preserves uniqueness of the source_id column. -/
lemma nodup_ids_insertMany (anns : List Announcement) {rows : List Announcement}
    (h : (rows.map (fun r => r.source_id)).Nodup) :
    ((insertOrIgnoreMany rows anns).map (fun r => r.source_id)).Nodup := by
  induction anns generalizing rows with
  | nil => exact h
  | cons a rest ih => exact ih (nodup_ids_insertRow a h)

end AnnouncementRepository

namespace ExchangeScraper

/-- If the batch loop produced a nonempty result, then as soon as the head
record's id is known to the durable store, the same batch loop halts
immediately with no accepted records (whatever the cutoff is). -/
lemma procLoop_blocked_by_head (cfg : ScraperConfig) :
    ∀ (its : List Item) {l : Int} {rows : List Announcement} {a : Announcement}
      {tl : List Announcement},
      procLoop cfg l rows its = a :: tl →
      ∀ {l2 : Int} {rows2 : List Announcement},
        AnnouncementRepository.anyId rows2 a.source_id = true →
        procLoop cfg l2 rows2 its = [] := by
  intro its
  induction its with
  | nil =>
    intro l rows a tl h
    simp [procLoop] at h
  | cons it rest ih =>
    intro l rows a tl h l2 rows2 hmem
    cases hp : parse_announcement cfg it with
    | none =>
      simp only [procLoop, hp] at h ⊢
      exact ih h hmem
    | some b =>
      simp only [procLoop, hp] at h ⊢
      split at h
      · exact List.noConfusion h
      · obtain ⟨hb, -⟩ := List.cons.inj h
        subst hb
        rw [if_pos (by rw [hmem, Bool.or_true])]

end ExchangeScraper

/-! ## Claim theorems -/

/-- Unfolding of process_exchange for a successful fetch, in terms of the
batch loop and the repository operations (definitional). -/
lemma process_exchange_ok_spec (cfg : ScraperConfig) (st : StoreState)
    (items : List Item) (dbOk : Bool) :
    process_exchange cfg st (.ok items) dbOk =
      if (ExchangeScraper.procLoop cfg
            ((AnnouncementRepository.get_latest_published_ms st 0).2.getD 0)
            (AnnouncementRepository.get_latest_published_ms st 0).1.rows
            (ExchangeScraper.sort_items_by_date items)).isEmpty then
        ⟨(AnnouncementRepository.get_latest_published_ms st 0).1, [], [], 0,
          items.length⟩
      else
        ⟨(AnnouncementRepository.insert_many_if_new
            (AnnouncementRepository.get_latest_published_ms st 0).1
            (ExchangeScraper.procLoop cfg
              ((AnnouncementRepository.get_latest_published_ms st 0).2.getD 0)
              (AnnouncementRepository.get_latest_published_ms st 0).1.rows
              (ExchangeScraper.sort_items_by_date items)) dbOk).1,
         (AnnouncementRepository.insert_many_if_new
            (AnnouncementRepository.get_latest_published_ms st 0).1
            (ExchangeScraper.procLoop cfg
              ((AnnouncementRepository.get_latest_published_ms st 0).2.getD 0)
              (AnnouncementRepository.get_latest_published_ms st 0).1.rows
              (ExchangeScraper.sort_items_by_date items)) dbOk).2,
         (AnnouncementRepository.insert_many_if_new
            (AnnouncementRepository.get_latest_published_ms st 0).1
            (ExchangeScraper.procLoop cfg
              ((AnnouncementRepository.get_latest_published_ms st 0).2.getD 0)
              (AnnouncementRepository.get_latest_published_ms st 0).1.rows
              (ExchangeScraper.sort_items_by_date items)) dbOk).2.take 5,
         (AnnouncementRepository.insert_many_if_new
            (AnnouncementRepository.get_latest_published_ms st 0).1
            (ExchangeScraper.procLoop cfg
              ((AnnouncementRepository.get_latest_published_ms st 0).2.getD 0)
              (AnnouncementRepository.get_latest_published_ms st 0).1.rows
              (ExchangeScraper.sort_items_by_date items)) dbOk).2.length,
         items.length⟩ := rfl

/-- C1.  At-most-once delivery: running any payload through the full
pipeline (fetch_latest's item processing followed by insert_many_if_new
with the cached/durable latest timestamp updated) and then running the
identical payload through the pipeline again yields zero new records on
the second pass, the first pass's durable insert having succeeded
(dbOk = true on both passes). -/
theorem pipeline_at_most_once (cfg : ScraperConfig) (st : StoreState) (items : List Item) :
    (process_exchange cfg (process_exchange cfg st (.ok items) true).st
        (.ok items) true).newAnns = [] := by
  cases hP1 : ExchangeScraper.procLoop cfg
      ((AnnouncementRepository.get_latest_published_ms st 0).2.getD 0)
      (AnnouncementRepository.get_latest_published_ms st 0).1.rows
      (ExchangeScraper.sort_items_by_date items) with
  | nil =>
    rw [process_exchange_ok_spec cfg st items true, hP1,
      if_pos (show ([] : List Announcement).isEmpty = true from rfl)]
    rw [process_exchange_ok_spec]
    rw [AnnouncementRepository.get_latest_idem st, hP1,
      if_pos (show ([] : List Announcement).isEmpty = true from rfl)]
  | cons a tl =>
    rw [process_exchange_ok_spec cfg st items true, hP1,
      if_neg (show ¬((a :: tl).isEmpty = true) from by simp)]
    dsimp only
    rw [show AnnouncementRepository.insert_many_if_new
        (AnnouncementRepository.get_latest_published_ms st 0).1 (a :: tl) true =
        (⟨AnnouncementRepository.insertOrIgnoreMany
            (AnnouncementRepository.get_latest_published_ms st 0).1.rows (a :: tl),
          RedisCache.set_latest_ms
            (AnnouncementRepository.get_latest_published_ms st 0).1.cacheLatest
            (AnnouncementRepository.maxPublished (a :: tl))⟩,
         a :: tl) from rfl]
    rw [process_exchange_ok_spec]
    dsimp only
    have hmem2 : AnnouncementRepository.anyId
        (AnnouncementRepository.get_latest_published_ms
          ⟨AnnouncementRepository.insertOrIgnoreMany
              (AnnouncementRepository.get_latest_published_ms st 0).1.rows (a :: tl),
            RedisCache.set_latest_ms
              (AnnouncementRepository.get_latest_published_ms st 0).1.cacheLatest
              (AnnouncementRepository.maxPublished (a :: tl))⟩ 0).1.rows
        a.source_id = true := by
      rw [AnnouncementRepository.get_latest_rows]
      exact AnnouncementRepository.anyId_insertMany_mem (a :: tl) _
        (List.mem_cons_self a tl)
    rw [ExchangeScraper.procLoop_blocked_by_head cfg
      (ExchangeScraper.sort_items_by_date items) hP1 hmem2,
      if_pos (show ([] : List Announcement).isEmpty = true from rfl)]

/-- C2 counterexample.  Inserting a batch whose single record is already
persisted: the durable table gains no row, yet insert_many_if_new returns
the whole batch — not the (empty) sublist of records actually persisted,
contrary to the claim. -/
theorem insert_returns_unpersisted_duplicate :
    (AnnouncementRepository.insert_many_if_new ⟨[annRow "x" 5], none⟩
        [annRow "x" 5] true).2 = [annRow "x" 5] ∧
    (AnnouncementRepository.insert_many_if_new ⟨[annRow "x" 5], none⟩
        [annRow "x" 5] true).1.rows = [annRow "x" 5] := by
  decide

/-- C2 amended.  On a successful transaction insert_many_if_new returns
the entire input batch — including records whose (source, externalId)
already has a durable row, which INSERT OR IGNORE leaves unpersisted but
which are still returned — and the ignore-on-conflict write preserves
uniqueness of the source_id column. -/
theorem insert_many_if_new_returns_whole_batch (st : StoreState)
    (anns : List Announcement) (h : anns ≠ []) :
    (AnnouncementRepository.insert_many_if_new st anns true).2 = anns ∧
    ((st.rows.map (fun r => r.source_id)).Nodup →
      ((AnnouncementRepository.insert_many_if_new st anns true).1.rows.map
        (fun r => r.source_id)).Nodup) := by
  cases anns with
  | nil => exact absurd rfl h
  | cons a tl =>
    refine ⟨rfl, fun hnd => ?_⟩
    exact AnnouncementRepository.nodup_ids_insertMany (a :: tl) hnd

/-- Witness for C2 amended: a one-record batch into an empty store. -/
theorem insert_many_if_new_returns_whole_batch_witness :
    ([annRow "x" 5] : List Announcement) ≠ [] ∧
    ((AnnouncementRepository.insert_many_if_new stEmpty [annRow "x" 5] true).2
        = [annRow "x" 5] ∧
      ((stEmpty.rows.map (fun r => r.source_id)).Nodup →
        ((AnnouncementRepository.insert_many_if_new stEmpty [annRow "x" 5]
            true).1.rows.map (fun r => r.source_id)).Nodup)) :=
  ⟨by decide,
    insert_many_if_new_returns_whole_batch stEmpty [annRow "x" 5] (by decide)⟩

/-- C6.  Atomicity of the durable write: when the transaction fails,
insert_many_if_new returns an empty list without raising (it is a total
function) and leaves the state — durable rows and the cached latest
timestamp — unchanged; consequently the orchestrator hands no record of
that batch onward and sends no notification. -/
theorem insert_failure_atomic (st : StoreState) (anns : List Announcement)
    (cfg : ScraperConfig) (st2 : StoreState)
    (fetched : Except String (List Item)) :
    AnnouncementRepository.insert_many_if_new st anns false = (st, []) ∧
    (process_exchange cfg st2 fetched false).newAnns = [] ∧
    (process_exchange cfg st2 fetched false).notified = [] := by
  refine ⟨?_, ?_, ?_⟩
  · cases anns <;> rfl
  · cases fetched with
    | error _ => rfl
    | ok items =>
      rw [process_exchange_ok_spec]
      cases hP : ExchangeScraper.procLoop cfg
          ((AnnouncementRepository.get_latest_published_ms st2 0).2.getD 0)
          (AnnouncementRepository.get_latest_published_ms st2 0).1.rows
          (ExchangeScraper.sort_items_by_date items) with
      | nil => rfl
      | cons a tl => rfl
  · cases fetched with
    | error _ => rfl
    | ok items =>
      rw [process_exchange_ok_spec]
      cases hP : ExchangeScraper.procLoop cfg
          ((AnnouncementRepository.get_latest_published_ms st2 0).2.getD 0)
          (AnnouncementRepository.get_latest_published_ms st2 0).1.rows
          (ExchangeScraper.sort_items_by_date items) with
      | nil => rfl
      | cons a tl => rfl

/-- C9.  Notification cap: in every cycle the records forwarded to the
notification sink are exactly new_anns[:5], so the number of
notifications sent equals min(len(new_anns), 5) — at most five even when
the persistence step returned more. -/
theorem notification_cap (cfg : ScraperConfig) (st : StoreState)
    (fetched : Except String (List Item)) (dbOk : Bool) :
    (process_exchange cfg st fetched dbOk).notified.length =
      min (process_exchange cfg st fetched dbOk).newAnns.length 5 := by
  cases fetched with
  | error _ => rfl
  | ok items =>
    rw [process_exchange_ok_spec]
    cases hP : ExchangeScraper.procLoop cfg
        ((AnnouncementRepository.get_latest_published_ms st 0).2.getD 0)
        (AnnouncementRepository.get_latest_published_ms st 0).1.rows
        (ExchangeScraper.sort_items_by_date items) with
    | nil => rfl
    | cons a tl =>
      simp [List.length_take, Nat.min_comm]

/-- C3.  Cutoff correctness: with the source's latest known timestamp 1000
(the timestamp-1000 announcement being the persisted one that produced
it), the batch loop on a descending batch with timestamps 1200, 1100,
1000, … accepts exactly the first two items and halts at the third: the
result is independent of the fourth list entry, which is never inspected
(the quantified d covers the timestamp-900 item of the claim and any
other). -/
theorem cutoff_accepts_first_two (d : Item) :
    ExchangeScraper.process_items cfgEx stWith1000
        [mkItem "e1200" 1200, mkItem "e1100" 1100, mkItem "e1000" 1000, d] =
      ExchangeScraper.process_items cfgEx stWith1000
        [mkItem "e1200" 1200, mkItem "e1100" 1100, mkItem "e1000" 1000] ∧
    (ExchangeScraper.process_items cfgEx stWith1000
        [mkItem "e1200" 1200, mkItem "e1100" 1100, mkItem "e1000" 1000]).2.map
        (fun a => a.source_id) = ["e1200", "e1100"] := by
  exact ⟨rfl, by decide⟩

/-- C4 counterexample.  extract_tickers on the first spec input does not
include "WBTC": the trading-pair suffix stripper rewrites WBTC to W (the
BTC ending matches the suffix regex), so the claimed member is absent. -/
theorem extract_tickers_wbtc_missing :
    ("WBTC" ∈ TickerParser.extract_tickers
      "Binance Will List Wrapped Bitcoin (WBTC) (BTC)" "") = False := by
  simp only [eq_iff_iff, iff_false]
  decide

/-- C4 amended.  The first input yields exactly ["W"] (WBTC is captured
but its BTC suffix is stripped to "W"; the quote currency BTC itself is
blacklisted), and the second input yields exactly ["LEVER"] — in
particular LEVER is extracted and LEVERUSDT is not returned. -/
theorem extract_tickers_on_spec_inputs :
    TickerParser.extract_tickers "Binance Will List Wrapped Bitcoin (WBTC) (BTC)" ""
      = ["W"] ∧
    TickerParser.extract_tickers "New trading pair LEVERUSDT launched" ""
      = ["LEVER"] := by
  decide

/-- C5 counterexample.  A transport failure surfacing from the fetch step
produces exactly the same fetch_latest outcome as a successful fetch of an
empty payload: the error is converted into a normal empty result, not
surfaced to the scheduler loop. -/
theorem fetch_error_equals_empty_fetch :
    ExchangeScraper.fetch_latest cfgEx stEmpty (.error "connection failed") =
      ExchangeScraper.fetch_latest cfgEx stEmpty (.ok []) := by
  decide

/-- C5 amended.  HttpClient.request does re-raise the last transport error
once its three attempts are exhausted, but ExchangeScraper.fetch_latest
catches every exception from the fetch step and returns ([], 0) with the
state untouched, so no error ever reaches the scheduler from this path. -/
theorem fetch_latest_swallows_errors :
    (∀ (m1 m2 m3 : String) (rest : List (Except String String)),
      HttpClient.request (.error m1 :: .error m2 :: .error m3 :: rest) = .error m3) ∧
    ∀ (cfg : ScraperConfig) (st : StoreState) (msg : String),
      ExchangeScraper.fetch_latest cfg st (.error msg) = (st, [], 0) := by
  constructor
  · intro m1 m2 m3 rest
    rfl
  · intro cfg st msg
    rfl

/-- C7 counterexample.  With a stored latest value of 0, set_latest_ms
with the smaller value -5 overwrites the store: the stored value
decreases, contradicting both "never decreases" and "a call with a value
less than or equal to the current one leaves the store unchanged". -/
theorem set_latest_ms_decreases_from_zero :
    RedisCache.set_latest_ms (some 0) (-5) = some (-5) ∧ (-5 : Int) < 0 := by
  decide

/-- C7 amended.  set_latest_ms is monotonic whenever the stored value is
nonzero — a strictly greater value replaces it and any other value leaves
it unchanged — but an absent or zero stored value (both falsy in Python)
is overwritten by every new value, including strictly smaller ones. -/
theorem set_latest_ms_monotone_on_nonzero (v ts : Int) :
    (v ≠ 0 → RedisCache.set_latest_ms (some v) ts =
      if v < ts then some ts else some v) ∧
    RedisCache.set_latest_ms none ts = some ts ∧
    RedisCache.set_latest_ms (some 0) ts = some ts := by
  refine ⟨fun hv => ?_, rfl, by simp [RedisCache.set_latest_ms, RedisCache.get_latest_ms]⟩
  simp only [RedisCache.set_latest_ms, RedisCache.get_latest_ms, if_neg hv]

/-- Witness for C7 amended at v = 7, ts = 3. -/
theorem set_latest_ms_monotone_on_nonzero_witness :
    (7 : Int) ≠ 0 ∧ RedisCache.set_latest_ms (some 7) 3 = some 7 :=
  ⟨by decide, by
    have h := (set_latest_ms_monotone_on_nonzero 7 3).1 (by decide)
    simpa using h⟩

/-- C8.  Fresh source, first poll: with no cached latest value and no
durable rows, a payload of three parseable items timestamped 300, 200,
100 yields three accepted records, and after persisting them the latest
known timestamp reads back as 300. -/
theorem fresh_source_first_poll :
    (ExchangeScraper.fetch_latest cfgEx stEmpty
        (.ok [mkItem "a3" 300, mkItem "a2" 200, mkItem "a1" 100])).2.1.length = 3 ∧
    (AnnouncementRepository.get_latest_published_ms
      (AnnouncementRepository.insert_many_if_new
        (ExchangeScraper.fetch_latest cfgEx stEmpty
          (.ok [mkItem "a3" 300, mkItem "a2" 200, mkItem "a1" 100])).1
        (ExchangeScraper.fetch_latest cfgEx stEmpty
          (.ok [mkItem "a3" 300, mkItem "a2" 200, mkItem "a1" 100])).2.1
        true).1).2 = some 300 := by
  decide

/-- Suffix stripping only shortens a token and introduces no character. -/
lemma stripPairSuffix_shrinks (u : List Char) :
    (TickerParser.stripPairSuffix u).length ≤ u.length ∧
      ∀ c ∈ TickerParser.stripPairSuffix u, c ∈ u := by
  unfold TickerParser.stripPairSuffix
  split
  · constructor
    · rw [List.length_take]
      exact min_le_right _ _
    · exact fun c hc => List.take_subset _ _ hc
  · exact ⟨le_refl _, fun c hc => hc⟩

/-- Every token surviving filter_tickers is nonempty, at most 12 chars,
all uppercase-alphanumeric, and not blacklisted. -/
lemma filter_tickers_sound {captures : List (List Char)} {tok : List Char}
    (h : tok ∈ TickerParser.filter_tickers
      ((captures.map TickerParser.extract_valid_tickers).flatten)) :
    tok ≠ [] ∧ tok.length ≤ 12 ∧ (∀ c ∈ tok, isTickerChar c = true) ∧
      ∀ b ∈ TickerParser.BLACKLIST, b.data ≠ tok := by
  unfold TickerParser.filter_tickers at h
  obtain ⟨u, hu, hif⟩ := List.mem_filterMap.mp h
  have hcond : (!(TickerParser.stripPairSuffix u).isEmpty &&
      !(TickerParser.BLACKLIST.any
        (fun b => b.data == TickerParser.stripPairSuffix u))) = true := by
    by_contra hc
    rw [Bool.not_eq_true] at hc
    rw [if_neg (by rw [hc]; exact Bool.false_ne_true)] at hif
    exact Option.noConfusion hif
  rw [if_pos hcond] at hif
  obtain ⟨hne, hbl⟩ := Bool.and_eq_true_iff.mp hcond
  obtain ⟨htok⟩ := Option.some.inj hif
  have hu2 := List.mem_filter.mp hu
  have hu3 := List.mem_filter.mp hu2.1
  obtain ⟨l, hl, hul⟩ := List.mem_flatten.mp hu3.1
  obtain ⟨s, -, hs⟩ := List.mem_map.mp hl
  rw [← hs] at hul
  have hvalid := (List.mem_filter.mp hul).2
  obtain ⟨hall, hlen⟩ := Bool.and_eq_true_iff.mp hvalid
  have hshrink := stripPairSuffix_shrinks u
  refine ⟨?_, ?_, ?_, ?_⟩
  · intro hnil
    rw [hnil] at hne
    simp at hne
  · exact le_trans hshrink.1 (of_decide_eq_true hlen)
  · intro c hc
    exact List.all_eq_true.mp hall c (hshrink.2 c hc)
  · intro b hb heq
    have hany : TickerParser.BLACKLIST.any
        (fun x => x.data == TickerParser.stripPairSuffix u) = true :=
      List.any_eq_true.mpr ⟨b, hb, by simp [heq]⟩
    rw [hany] at hbl
    simp at hbl

/-- C10.  Ticker output invariant: whatever strings the configured
patterns captured (so for every title, body and pattern input), every
element of the returned list is a nonempty string of at most 12
characters drawn from [A-Z0-9] that is not blacklisted, and the returned
list is sorted with no duplicates. -/
theorem extract_tickers_output_invariant (captures : List (List Char)) :
    (∀ t ∈ TickerParser.extractTickersCore captures,
      t ≠ "" ∧ t.length ≤ 12 ∧ (∀ c ∈ t.data, isTickerChar c = true) ∧
        t ∉ TickerParser.BLACKLIST) ∧
    List.Sorted (fun a b => a ≤ b) (TickerParser.extractTickersCore captures) ∧
    (TickerParser.extractTickersCore captures).Nodup := by
  refine ⟨?_, ?_, ?_⟩
  · intro t ht
    rw [TickerParser.extractTickersCore, List.mem_insertionSort] at ht
    have ht2 := List.mem_dedup.mp ht
    obtain ⟨tok, htok, hmk⟩ := List.mem_map.mp ht2
    obtain ⟨hne, hlen, hchars, hbl⟩ := filter_tickers_sound htok
    refine ⟨?_, ?_, ?_, ?_⟩
    · intro h0
      exact hne (by
        have h1 := congrArg String.data (hmk.trans h0)
        simpa using h1)
    · rw [← hmk]
      exact hlen
    · rw [← hmk]
      exact hchars
    · intro hmem
      exact hbl t hmem (by rw [← hmk])
  · exact List.sorted_insertionSort _ _
  · exact ((List.perm_insertionSort _ _).symm).nodup
      (List.nodup_dedup _)

/-- Witness for C10: a single captured string "AB". -/
theorem extract_tickers_output_invariant_witness :
    ("AB" ∈ TickerParser.extractTickersCore [['A', 'B']]) ∧
    ("AB" ≠ "" ∧ ("AB" : String).length ≤ 12 ∧
      (∀ c ∈ ("AB" : String).data, isTickerChar c = true) ∧
      "AB" ∉ TickerParser.BLACKLIST) :=
  ⟨by decide,
    (extract_tickers_output_invariant [['A', 'B']]).1 "AB" (by decide)⟩

end Aggreflow
